import Mathlib

/-!
Shallow embedding of the AEM-to-MLE synchronization core of this repository
(src/aem-mle-sync-service.js, with its near-duplicate src/adobe-io-runtime-action.js).
JavaScript values occurring in inbound event metadata are modelled by `JSValue`
(strings, numbers, arrays of scalars, per the inbound metadata type); JavaScript
truthiness, `String.prototype.includes`, `split`/`pop`, `toLowerCase` (ASCII) and
`Array.from(new Set(...))` insertion-order deduplication are modelled explicitly.
Functions that can raise a JavaScript TypeError or RangeError return `Except Unit`.
External library calls (the HMAC-SHA256 digest of the crypto module, the axios and
fetch HTTP transports, the OAuth token endpoint) are parameters of the embedded
functions: the code of this repository begins where those libraries return.
-/

/-- Decidable equality for Except, used to evaluate embedded functions that
model throwing JavaScript code at concrete inputs. -/
instance {ε α : Type} [DecidableEq ε] [DecidableEq α] : DecidableEq (Except ε α) := fun a b =>
  match a, b with
  | .ok x, .ok y => if h : x = y then isTrue (by rw [h]) else isFalse (by simp [h])
  | .error x, .error y => if h : x = y then isTrue (by rw [h]) else isFalse (by simp [h])
  | .ok _, .error _ => isFalse (by simp)
  | .error _, .ok _ => isFalse (by simp)

namespace AemMle

/-- Scalar JavaScript value occurring in event metadata: a string or a number. -/
inductive JSLeaf
  | str (s : String)
  | num (n : Int)
deriving DecidableEq, Repr

/-- Metadata field value: a scalar or an array of scalars, per the inbound
metadata type mapping of the service. -/
inductive JSValue
  | leaf (l : JSLeaf)
  | arr (xs : List JSLeaf)
deriving DecidableEq, Repr

/-- JavaScript truthiness of a scalar: empty string and zero are falsy. -/
def truthyL : JSLeaf → Bool
  | .str s => !(s = "")
  | .num n => !(n = 0)

/-- JavaScript truthiness of a metadata value: arrays are always truthy. -/
def truthyV : JSValue → Bool
  | .leaf l => truthyL l
  | .arr _ => true

/-- Metadata object: association list from field name to value; absent key is
JavaScript undefined. -/
def Metadata := List (String × JSValue)

instance : DecidableEq Metadata := fun a b => List.hasDecEq a b

instance : Repr Metadata := inferInstanceAs (Repr (List (String × JSValue)))

/-- Property read metadata[field]; first binding wins, as in a JS object. -/
def mget (m : Metadata) (k : String) : Option JSValue := List.lookup k m

/-- Truthiness of a possibly-undefined value: undefined is falsy. -/
def truthyO : Option JSValue → Bool
  | none => false
  | some v => truthyV v

/-- JavaScript a || b for a possibly-undefined a and a present default b. -/
def jsOr (v : Option JSValue) (d : JSValue) : JSValue :=
  match v with
  | some x => if truthyV x then x else d
  | none => d

/-- JavaScript a || b where both operands may be undefined. -/
def jsOrOpt (a b : Option JSValue) : Option JSValue :=
  match a with
  | some x => if truthyV x then some x else b
  | none => b

/-- Is pat a prefix of hay (character lists)? Models String.prototype.startsWith. -/
def strStartsWith : List Char → List Char → Bool
  | [], _ => true
  | _ :: _, [] => false
  | a :: as, b :: bs => a == b && strStartsWith as bs

/-- Does hay contain pat as a contiguous substring? Models String.prototype.includes. -/
def strHasSub : List Char → List Char → Bool
  | [], pat => pat.isEmpty
  | c :: rest, pat => strStartsWith pat (c :: rest) || strHasSub rest pat

/-- JavaScript s.includes(t). -/
def jsIncludes (s t : String) : Bool := strHasSub s.data t.data

/-- JavaScript s.split(sep) for a single-character separator. -/
def splitOnChar (sep : Char) : List Char → List (List Char)
  | [] => [[]]
  | c :: rest =>
      let r := splitOnChar sep rest
      if c = sep then [] :: r
      else
        match r with
        | x :: xs => (c :: x) :: xs
        | [] => [[c]]

/-- JavaScript s.split(sep).pop(): the last segment (split never yields an
empty list). -/
def jsSplitPop (sep : Char) (s : String) : String :=
  ⟨(splitOnChar sep s.data).getLastD []⟩

/-- ASCII lowercase of a string, modelling String.prototype.toLowerCase on the
ASCII field names and status words this service compares. -/
def jsToLower (s : String) : String := ⟨s.data.map Char.toLower⟩

/-! ## Approval checking

Source: EventProcessor.isAssetApproved and MetadataTransformer.getApprovalStatus
in src/aem-mle-sync-service.js (identically isAssetApproved / getApprovalStatus
in src/adobe-io-runtime-action.js). Both evaluate, per field in a fixed order,
the JavaScript expression

  value && (value.toLowerCase() === "approved" || value.toLowerCase() === "published")

which is falsy when value is absent or falsy, compares when value is a truthy
string, and throws a TypeError (value.toLowerCase is not a function) when value
is a truthy non-string (number or array). -/

/-- One evaluation of the guard above on a single field value. -/
def checkApproval : Option JSValue → Except Unit Bool
  | none => .ok false
  | some (.leaf (.str s)) =>
      .ok (!(s = "") && (jsToLower s = "approved" || jsToLower s = "published"))
  | some (.leaf (.num n)) => if n = 0 then .ok false else .error ()
  | some (.arr _) => .error ()

/-- Field list scanned by EventProcessor.isAssetApproved. -/
def approvalFields : List String :=
  ["dam:status", "dam:approvalStatus", "cq:workflowStatus", "jcr:content/metadata/dam:status"]

/-- Field list scanned by MetadataTransformer.getApprovalStatus. -/
def transformerApprovalFields : List String :=
  ["dam:status", "dam:approvalStatus", "cq:workflowStatus"]

/-- The for-loop of isAssetApproved: first truthy approving string returns true;
a truthy non-string encountered first propagates the TypeError. -/
def approvedScan (m : Metadata) : List String → Except Unit Bool
  | [] => .ok false
  | f :: rest =>
      match checkApproval (mget m f) with
      | .error e => .error e
      | .ok true => .ok true
      | .ok false => approvedScan m rest

/-- EventProcessor.isAssetApproved. -/
def isAssetApproved (m : Metadata) : Except Unit Bool := approvedScan m approvalFields

/-- The for-loop of getApprovalStatus, returning "approved" or "pending". -/
def approvalScanStr (m : Metadata) : List String → Except Unit String
  | [] => .ok "pending"
  | f :: rest =>
      match checkApproval (mget m f) with
      | .error e => .error e
      | .ok true => .ok "approved"
      | .ok false => approvalScanStr m rest

/-- MetadataTransformer.getApprovalStatus. -/
def getApprovalStatus (m : Metadata) : Except Unit String :=
  approvalScanStr m transformerApprovalFields

/-! ## Event-type filtering

Source: EventProcessor.shouldProcessEvent. The list names full reverse-DNS
event types, but the test applied is
  processableEvents.some(event => eventType.includes(event.split(".").pop()))
i.e. substring containment of each LAST SEGMENT of the listed types. -/

/-- The processableEvents list of EventProcessor.shouldProcessEvent. -/
def processableEvents : List String :=
  ["com.adobe.aem.assets.metadata.updated",
   "com.adobe.aem.workflow.completed",
   "com.adobe.aem.assets.created",
   "com.adobe.aem.assets.updated",
   "com.adobe.aem.assets.deleted",
   "com.adobe.aem.assets.removed"]

/-- EventProcessor.shouldProcessEvent. -/
def shouldProcessEvent (eventType : String) : Bool :=
  processableEvents.any (fun event => jsIncludes eventType (jsSplitPop '.' event))

/-! ## OAuth token management

Source: class TokenManager in src/aem-mle-sync-service.js. The axios POST to the
token endpoint is abstracted as an `OAuthOutcome` parameter; Date.now() at the
cache check and at the cache write are separate instants (the write happens
after the awaited response). -/

/-- Mutable fields of a TokenManager instance (both initialized to null). -/
structure TMState where
  accessToken : Option String
  tokenExpiry : Option Int
deriving DecidableEq, Repr

/-- The guard this.accessToken && this.tokenExpiry && Date.now() < this.tokenExpiry
(JavaScript truthiness on both cached fields). -/
def cacheValid (st : TMState) (now : Int) : Bool :=
  match st.accessToken, st.tokenExpiry with
  | some t, some e => !(t = "") && !(e = 0) && now < e
  | _, _ => false

/-- Outcome of the awaited token-endpoint POST. -/
inductive OAuthOutcome
  | success (accessTok : String) (expiresIn : Int)
  | failure
deriving DecidableEq, Repr

/-- TokenManager.getAccessToken: returns the new state, the returned token or
the thrown authentication error, and whether an outbound token request was
issued. `now` is Date.now() at the cache check, `nowAfter` Date.now() at the
cache write after the response arrives. -/
def getAccessToken (st : TMState) (now : Int) (out : OAuthOutcome) (nowAfter : Int) :
    TMState × Except Unit String × Bool :=
  if cacheValid st now then
    (st, .ok (st.accessToken.getD ""), false)
  else
    match out with
    | .success tok expiresIn =>
        ({ accessToken := some tok, tokenExpiry := some (nowAfter + expiresIn * 1000 - 60000) },
         .ok tok, true)
    | .failure => (st, .error (), true)

/-! ## Concurrent callers of getAccessToken

In the Node.js event loop a caller of getAccessToken runs atomically from the
cache check up to initiating the axios POST (where it awaits), and again
atomically from receiving the response through the cache write. A concurrent
execution of several callers is an interleaving of these two atomic steps per
caller; no mutual exclusion or shared in-flight promise exists in the source. -/

/-- Progress of one caller: not yet run, awaiting its HTTP response, or done
(recording whether it issued an outbound request). -/
inductive CallerPhase
  | ready
  | awaitingResponse
  | done (issued : Bool)
deriving DecidableEq, Repr

/-- One caller of getAccessToken: when its cache check runs, what its token
request would return, and when that response arrives. -/
structure ConcCaller where
  phase : CallerPhase
  checkTime : Int
  outcome : OAuthOutcome
  respTime : Int
deriving DecidableEq, Repr

/-- Shared state of the interleaved execution: the TokenManager fields, the
callers, and the count of outbound OAuth requests issued so far. -/
structure ConcState where
  tm : TMState
  callers : List ConcCaller
  requests : Nat
deriving DecidableEq, Repr

/-- Advance one caller by one atomic step against the shared cache. The first
step is the cache check (issuing a request if the cache is invalid); the second
receives the response and performs the cache write of getAccessToken. -/
def advanceCaller (tm : TMState) (c : ConcCaller) : TMState × ConcCaller × Nat :=
  match c.phase with
  | .ready =>
      if cacheValid tm c.checkTime then (tm, { c with phase := .done false }, 0)
      else (tm, { c with phase := .awaitingResponse }, 1)
  | .awaitingResponse =>
      match c.outcome with
      | .success tok expiresIn =>
          ({ accessToken := some tok, tokenExpiry := some (c.respTime + expiresIn * 1000 - 60000) },
           { c with phase := .done true }, 0)
      | .failure => (tm, { c with phase := .done true }, 0)
  | .done _ => (tm, c, 0)

/-- Run one scheduled step: caller i takes its next atomic step. -/
def concStep (s : ConcState) (i : Nat) : ConcState :=
  match s.callers.get? i with
  | none => s
  | some c =>
      let (tm, cNew, k) := advanceCaller s.tm c
      { tm := tm, callers := s.callers.set i cNew, requests := s.requests + k }

/-- Run a schedule (a list of caller indices, each entry one atomic step). -/
def runSchedule (s : ConcState) : List Nat → ConcState
  | [] => s
  | i :: rest => runSchedule (concStep s i) rest

/-! ## Webhook signature verification

Source: verifyWebhookSignature in src/aem-mle-sync-service.js. The crypto
module computes an HMAC-SHA256 digest of the payload under the secret and the
code hex-encodes it via digest("hex"); that 32-byte library value is the
`digest` parameter here. The code then compares
  crypto.timingSafeEqual(Buffer.from(signature, "hex"), Buffer.from(expected, "hex"))
where Buffer.from(s, "hex") decodes hex pairs until the first invalid pair or
odd trailing character, and timingSafeEqual THROWS a RangeError when the two
buffers have different lengths. -/

/-- Value of one hexadecimal character (both cases), none if not hexadecimal. -/
def hexCharVal (c : Char) : Option Nat :=
  if '0' ≤ c ∧ c ≤ '9' then some (c.toNat - '0'.toNat)
  else if 'a' ≤ c ∧ c ≤ 'f' then some (c.toNat - 'a'.toNat + 10)
  else if 'A' ≤ c ∧ c ≤ 'F' then some (c.toNat - 'A'.toNat + 10)
  else none

/-- Node.js Buffer.from(s, "hex"): decode pairs, stopping at the first invalid
pair or odd trailing character. -/
def hexDecode : List Char → List Nat
  | c1 :: c2 :: rest =>
      match hexCharVal c1, hexCharVal c2 with
      | some h, some l => (16 * h + l) :: hexDecode rest
      | _, _ => []
  | _ => []

/-- Buffer.from applied to a string with "hex" encoding. -/
def bufferFromHex (s : String) : List Nat := hexDecode s.data

/-- Lowercase hexadecimal digit for a value below 16 (48 is "0", 87 + 10 is "a"). -/
def hexDigit (n : Nat) : Char :=
  if n < 10 then Char.ofNat (48 + n) else Char.ofNat (87 + n)

/-- Lowercase hex encoding of a byte list, as produced by digest("hex"). -/
def hexEncode (bs : List Nat) : String :=
  ⟨bs.foldr (fun b acc => hexDigit (b / 16) :: hexDigit (b % 16) :: acc) []⟩

/-- crypto.timingSafeEqual: throws when lengths differ, else value equality. -/
def timingSafeEqual (a b : List Nat) : Except Unit Bool :=
  if a.length = b.length then .ok (a == b) else .error ()

/-- verifyWebhookSignature, with the HMAC-SHA256 digest bytes of
(payload, secret) supplied by the crypto library as `digest`. -/
def verifyWebhookSignature (digest : List Nat) (signature : String) : Except Unit Bool :=
  timingSafeEqual (bufferFromHex signature) (bufferFromHex (hexEncode digest))

/-! ## MLE API client (axios service)

Source: class MLEClient in src/aem-mle-sync-service.js. The axios call either
resolves (2xx) or throws an error that carries a response with a status for
HTTP-level failures and no response for network-level failures; a
token-acquisition failure thrown by TokenManager inside the try block is
likewise an error without a response field. The request body, asset id, and
bearer token do not influence the success and retryable classification below,
which is what these embeddings record. The fetch-based operations of
src/adobe-io-runtime-action.js have a DIFFERENT error shape and are embedded
separately below. -/

/-- The error value caught by the MLEClient catch blocks: error.response, when
present, carries the HTTP status. -/
structure AxiosError where
  response : Option Nat
deriving DecidableEq, Repr

/-- MLEClient.isRetryableError (identical isRetryableError in
src/adobe-io-runtime-action.js). -/
def isRetryableError (error : AxiosError) : Bool :=
  match error.response with
  | none => true
  | some status => decide (status ≥ 500) || decide (status = 429)

/-- Result record returned by the MLEClient operations: success flag, the
retryable flag when the returned object carries one, and whether error details
were attached. -/
structure MLEResult where
  success : Bool
  retryable : Option Bool
  hasErrorDetails : Bool
deriving DecidableEq, Repr

/-- MLEClient.sendAssetMetadata over the outcome of its awaited POST. -/
def sendAssetMetadata (out : Except AxiosError Unit) : MLEResult :=
  match out with
  | .ok _ => { success := true, retryable := none, hasErrorDetails := false }
  | .error e =>
      { success := false, retryable := some (isRetryableError e), hasErrorDetails := true }

/-- MLEClient.updateAssetMetadata over the outcome of its awaited PUT. -/
def updateAssetMetadata (out : Except AxiosError Unit) : MLEResult :=
  match out with
  | .ok _ => { success := true, retryable := none, hasErrorDetails := false }
  | .error e =>
      { success := false, retryable := some (isRetryableError e), hasErrorDetails := true }

/-- MLEClient.deleteAsset over the outcome of its awaited DELETE: its catch
block returns only success and error details, with NO retryable field. -/
def deleteAsset (out : Except AxiosError Unit) : MLEResult :=
  match out with
  | .ok _ => { success := true, retryable := none, hasErrorDetails := false }
  | .error _ => { success := false, retryable := none, hasErrorDetails := true }

/-! ## MLE API client (fetch-based runtime action)

Source: sendToMLE, updateMLE, deleteFromMLE and isRetryableError in
src/adobe-io-runtime-action.js. fetch does not reject on HTTP error statuses:
it resolves with a response whose ok flag is false, and the action code then
throws new Error("MLE API request failed: " + statusText) - a PLAIN Error
without a response property. A transport failure rejects with an error that
likewise has no response property, and a token failure is re-thrown by
getAccessToken as a plain Error. The isRetryableError in that file is
textually the same classification as MLEClient.isRetryableError, but every
error its catch blocks can receive lacks the response field, so its
no-response branch fires for every failure, including 400 and 404. -/

/-- The error caught by the runtime-action catch blocks: a non-ok fetch
response re-thrown as a plain Error (the original status recorded here only to
name concrete inputs), a transport rejection, or a token-acquisition failure. -/
inductive ActionError
  | nonOkResponse (status : Nat)
  | networkError
  | tokenFailure
deriving DecidableEq, Repr

/-- The response property read by the classification: none of the errors
thrown in src/adobe-io-runtime-action.js carries one, the non-ok HTTP status
included, because the code re-throws a plain Error built from statusText. -/
def ActionError.responseField : ActionError → Option Nat
  | .nonOkResponse _ => none
  | .networkError => none
  | .tokenFailure => none

/-- sendToMLE over the outcome of its awaited fetch POST: the catch block
classifies with the (identical) isRetryableError code applied to an error
whose response field is absent. -/
def sendToMLE (out : Except ActionError Unit) : MLEResult :=
  match out with
  | .ok _ => { success := true, retryable := none, hasErrorDetails := false }
  | .error e =>
      { success := false,
        retryable := some (isRetryableError { response := e.responseField }),
        hasErrorDetails := true }

/-- updateMLE over the outcome of its awaited fetch PUT, classified like
sendToMLE. -/
def updateMLE (out : Except ActionError Unit) : MLEResult :=
  match out with
  | .ok _ => { success := true, retryable := none, hasErrorDetails := false }
  | .error e =>
      { success := false,
        retryable := some (isRetryableError { response := e.responseField }),
        hasErrorDetails := true }

/-- deleteFromMLE over the outcome of its awaited fetch DELETE: like
MLEClient.deleteAsset, its catch block returns no retryable field. -/
def deleteFromMLE (out : Except ActionError Unit) : MLEResult :=
  match out with
  | .ok _ => { success := true, retryable := none, hasErrorDetails := false }
  | .error _ => { success := false, retryable := none, hasErrorDetails := true }

/-! ## Metadata transformation

Source: class MetadataTransformer in src/aem-mle-sync-service.js (duplicated as
free functions in src/adobe-io-runtime-action.js). -/

/-- Deduplication keeping first occurrences, as Array.from of a JS Set built by
insertion; seen accumulates the elements already emitted. -/
def dedupAux [DecidableEq α] : List α → List α → List α
  | [], _ => []
  | x :: xs, seen => if x ∈ seen then dedupAux xs seen else x :: dedupAux xs (x :: seen)

/-- The spread [...new Set(xs)] of the extract functions. -/
def jsNewSet [DecidableEq α] (xs : List α) : List α := dedupAux xs []

/-- The per-field gathering pattern of the extract functions: a falsy value
contributes nothing, an array spreads its elements, a truthy scalar is wrapped
as a one-element array. -/
def fieldValues (m : Metadata) (k : String) : List JSLeaf :=
  match mget m k with
  | none => []
  | some v =>
      if truthyV v then
        match v with
        | .leaf l => [l]
        | .arr xs => xs
      else []

/-- MetadataTransformer.extractTags: cq:tags then dam:tags, deduplicated. -/
def extractTags (metadata : Metadata) : List JSLeaf :=
  jsNewSet (fieldValues metadata "cq:tags" ++ fieldValues metadata "dam:tags")

/-- MetadataTransformer.extractCategories: dc:subject then dam:category. -/
def extractCategories (metadata : Metadata) : List JSLeaf :=
  jsNewSet (fieldValues metadata "dc:subject" ++ fieldValues metadata "dam:category")

/-- MetadataTransformer.extractKeywords: dc:keywords. -/
def extractKeywords (metadata : Metadata) : List JSLeaf :=
  jsNewSet (fieldValues metadata "dc:keywords")

/-- MetadataTransformer.getMediaType: falsy mimeType is "unknown"; a truthy
string is classified by prefix and containment; startsWith on a truthy
non-string throws. -/
def getMediaType (mimeType : JSValue) : Except Unit String :=
  if truthyV mimeType = false then .ok "unknown"
  else
    match mimeType with
    | .leaf (.str s) =>
        .ok (if strStartsWith "image/".data s.data then "image"
             else if strStartsWith "video/".data s.data then "video"
             else if strStartsWith "audio/".data s.data then "audio"
             else if jsIncludes s "pdf" then "document"
             else if jsIncludes s "text/" then "text"
             else "other")
    | _ => .error ()

/-- MetadataTransformer.getMimeTypeFromPath: lowercase final dot-segment of the
path looked up in the fixed extension table. -/
def getMimeTypeFromPath (assetPath : String) : String :=
  let extension := jsToLower (jsSplitPop '.' assetPath)
  if extension = "jpg" then "image/jpeg"
  else if extension = "jpeg" then "image/jpeg"
  else if extension = "png" then "image/png"
  else if extension = "gif" then "image/gif"
  else if extension = "svg" then "image/svg+xml"
  else if extension = "mp4" then "video/mp4"
  else if extension = "mov" then "video/quicktime"
  else if extension = "pdf" then "application/pdf"
  else if extension = "txt" then "text/plain"
  else "application/octet-stream"

/-- The replace of the trailing-extension pattern (a dot followed by one or
more characters that are neither a dot nor a slash, at end of string) by the
empty string, as in extractAssetIdFromPath. -/
def stripLastExtension (name : String) : String :=
  let parts := splitOnChar '.' name.data
  match parts.getLast? with
  | some lastPart =>
      if 2 ≤ parts.length ∧ lastPart ≠ [] ∧ ∀ c ∈ lastPart, c ≠ '/' then
        ⟨List.intercalate ['.'] parts.dropLast⟩
      else name
  | none => name

/-- MetadataTransformer.extractAssetIdFromPath. -/
def extractAssetIdFromPath (assetPath : String) : String :=
  stripLastExtension (jsSplitPop '/' assetPath)

/-- MetadataTransformer.extractFileNameFromPath. -/
def extractFileNameFromPath (assetPath : String) : String := jsSplitPop '/' assetPath

/-- The standardFields allow-list of extractCustomMetadata. -/
def standardFields : List String :=
  ["jcr:uuid", "jcr:created", "jcr:lastModified", "jcr:title",
   "dc:title", "dc:description", "dc:format", "dc:rights", "dc:creator", "dc:subject", "dc:keywords",
   "dam:size", "dam:status", "dam:brand", "dam:campaign", "dam:productType", "dam:usage", "dam:altText",
   "tiff:ImageWidth", "tiff:ImageLength", "tiff:ColorSpace", "tiff:XResolution", "tiff:Orientation",
   "exif:PixelXDimension", "exif:PixelYDimension",
   "cq:tags", "cq:workflowStatus",
   "xmpRights:UsageTerms"]

/-- MetadataTransformer.extractCustomMetadata: keys outside the allow-list and
outside the jcr: and rep: namespaces, copied verbatim. -/
def extractCustomMetadata (metadata : Metadata) : Metadata :=
  metadata.filter fun kv =>
    !(standardFields.contains kv.1) &&
    !(strStartsWith "jcr:".data kv.1.data) &&
    !(strStartsWith "rep:".data kv.1.data)

/-- Configured base URLs and API version read by the transformer. -/
structure Config where
  mleApiVersion : String
  aemAuthorUrl : String
  aemPublishUrl : String
deriving DecidableEq, Repr

/-- The dimensions sub-object of the transformed record. -/
structure Dimensions where
  width : Option JSValue
  height : Option JSValue
deriving DecidableEq, Repr

/-- The record built by MetadataTransformer.transformForMLE, field for field. -/
structure NormalizedMetadata where
  assetId : JSValue
  assetPath : String
  assetUrl : String
  publicUrl : String
  mediaType : String
  mimeType : JSValue
  fileSize : Option JSValue
  fileName : String
  dimensions : Dimensions
  title : Option JSValue
  description : Option JSValue
  altText : Option JSValue
  tags : List JSLeaf
  categories : List JSLeaf
  keywords : List JSLeaf
  brand : Option JSValue
  campaign : Option JSValue
  productType : Option JSValue
  usage : JSValue
  approvalStatus : String
  publishStatus : String
  workflowStatus : Option JSValue
  createdDate : Option JSValue
  modifiedDate : Option JSValue
  publishedDate : String
  colorSpace : Option JSValue
  resolution : Option JSValue
  orientation : Option JSValue
  copyright : Option JSValue
  license : Option JSValue
  creator : Option JSValue
  eventType : String
  sourceSystem : String
  apiVersion : String
  customMetadata : Metadata
deriving DecidableEq, Repr

/-- MetadataTransformer.transformForMLE. nowIso is the new Date().toISOString()
value taken while building the record. getMediaType and getApprovalStatus can
throw on truthy non-string field values; both are inside the try block of the
caller. -/
def transformForMLE (cfg : Config) (nowIso : String) (aemMetadata : Metadata)
    (assetPath eventType : String) : Except Unit NormalizedMetadata := do
  let assetUrl := cfg.aemAuthorUrl ++ assetPath
  let mimeType := jsOr (mget aemMetadata "dc:format")
    (.leaf (.str (getMimeTypeFromPath assetPath)))
  let mediaType ← getMediaType mimeType
  let approvalStatus ← getApprovalStatus aemMetadata
  pure {
    assetId := jsOr (mget aemMetadata "jcr:uuid") (.leaf (.str (extractAssetIdFromPath assetPath))),
    assetPath := assetPath,
    assetUrl := assetUrl,
    publicUrl := cfg.aemPublishUrl ++ assetPath,
    mediaType := mediaType,
    mimeType := mimeType,
    fileSize := mget aemMetadata "dam:size",
    fileName := extractFileNameFromPath assetPath,
    dimensions := {
      width := jsOrOpt (mget aemMetadata "tiff:ImageWidth") (mget aemMetadata "exif:PixelXDimension"),
      height := jsOrOpt (mget aemMetadata "tiff:ImageLength") (mget aemMetadata "exif:PixelYDimension") },
    title := jsOrOpt (mget aemMetadata "dc:title") (mget aemMetadata "jcr:title"),
    description := mget aemMetadata "dc:description",
    altText := jsOrOpt (mget aemMetadata "dam:altText") (mget aemMetadata "dc:title"),
    tags := extractTags aemMetadata,
    categories := extractCategories aemMetadata,
    keywords := extractKeywords aemMetadata,
    brand := mget aemMetadata "dam:brand",
    campaign := mget aemMetadata "dam:campaign",
    productType := mget aemMetadata "dam:productType",
    usage := jsOr (mget aemMetadata "dam:usage") (.leaf (.str "web")),
    approvalStatus := approvalStatus,
    publishStatus := "published",
    workflowStatus := mget aemMetadata "cq:workflowStatus",
    createdDate := jsOrOpt (mget aemMetadata "jcr:created") (mget aemMetadata "dam:created"),
    modifiedDate := jsOrOpt (mget aemMetadata "jcr:lastModified") (mget aemMetadata "dam:lastModified"),
    publishedDate := nowIso,
    colorSpace := mget aemMetadata "tiff:ColorSpace",
    resolution := mget aemMetadata "tiff:XResolution",
    orientation := mget aemMetadata "tiff:Orientation",
    copyright := mget aemMetadata "dc:rights",
    license := mget aemMetadata "xmpRights:UsageTerms",
    creator := mget aemMetadata "dc:creator",
    eventType := eventType,
    sourceSystem := "AEM",
    apiVersion := cfg.mleApiVersion,
    customMetadata := extractCustomMetadata aemMetadata }

/-! ## Event processing and the webhook endpoint

Source: EventProcessor.processAssetEvent and the app.post("/webhook/aem-events")
handler in src/aem-mle-sync-service.js. The endpoint filters on the body field
event_type while processAssetEvent destructures the field eventType from the
same body; both are modelled as the fields the code reads. The three MLEClient
operations are abstracted as one `mle` function from the selected operation to
the MLEResult the client returns (the client never throws); the trace records
the approval check, transformation, and each outbound MLE dispatch actually
performed, so that short-circuit claims are statements about the trace. -/

/-- Which MLEClient operation a dispatch performs. -/
inductive SyncOp
  | create
  | update
  | remove
deriving DecidableEq, Repr

/-- Observable processing actions, in order of occurrence. -/
inductive TraceEv
  | approvalCheck
  | transform
  | mleCall (op : SyncOp)
deriving DecidableEq, Repr

/-- Terminal status of processAssetEvent. -/
inductive ProcStatus
  | skipped
  | completed
  | failed
  | error
deriving DecidableEq, Repr

/-- One entry of the errors array of the processing result (system is always
the MLE; the retryable flag is copied from the MLEResult and may be absent). -/
structure ErrEntry where
  retryable : Option Bool
deriving DecidableEq, Repr

/-- The result object returned by processAssetEvent (the skipped early return
carries no assetId). -/
structure ProcessResult where
  status : ProcStatus
  errors : List ErrEntry
  assetId : Option JSValue
deriving DecidableEq, Repr

/-- The request body as read by the handler and by processAssetEvent:
event_type for the endpoint filter, eventType, assetPath, and metadata for the
processor. -/
structure WebhookBody where
  event_type : Option String
  eventType : String
  assetPath : String
  metadata : Metadata
deriving DecidableEq, Repr

/-- EventProcessor.processAssetEvent. The approval check runs OUTSIDE the try
block, so its TypeError propagates to the caller (.error); transform and
dispatch run inside the try block, so a transform throw is caught and recorded
as status error with a retryable:true entry. -/
def processAssetEvent (cfg : Config) (nowIso : String) (b : WebhookBody)
    (mle : SyncOp → MLEResult) : Except Unit ProcessResult × List TraceEv :=
  match isAssetApproved b.metadata with
  | .error e => (.error e, [.approvalCheck])
  | .ok false =>
      (.ok { status := .skipped, errors := [], assetId := none }, [.approvalCheck])
  | .ok true =>
      let assetId := jsOr (mget b.metadata "jcr:uuid")
        (.leaf (.str (extractAssetIdFromPath b.assetPath)))
      match transformForMLE cfg nowIso b.metadata b.assetPath b.eventType with
      | .error _ =>
          (.ok { status := .error, errors := [{ retryable := some true }], assetId := some assetId },
           [.approvalCheck, .transform])
      | .ok _ =>
          let op :=
            if jsIncludes b.eventType "created" || jsIncludes b.eventType "published" then
              SyncOp.create
            else if jsIncludes b.eventType "updated" || jsIncludes b.eventType "modified" then
              SyncOp.update
            else if jsIncludes b.eventType "deleted" || jsIncludes b.eventType "removed" then
              SyncOp.remove
            else SyncOp.create
          let r := mle op
          (.ok { status := if r.success then .completed else .failed,
                 errors := if r.success then [] else [{ retryable := r.retryable }],
                 assetId := some assetId },
           [.approvalCheck, .transform, .mleCall op])

/-- Response body variants of the webhook endpoint. -/
inductive RespBody
  | ignored
  | processed (result : ProcessResult)
  | invalidSignature
  | internalError
deriving DecidableEq, Repr

/-- JavaScript truthiness of the possibly-absent event_type field. -/
def eventTypeTruthy : Option String → Bool
  | none => false
  | some s => !(s = "")

/-- The event-type filter and processing part of the handler, after the
signature check: a falsy or non-processable event_type is ignored, otherwise
processAssetEvent runs and a thrown error reaches the catch block (500). -/
def handleEvent (cfg : Config) (nowIso : String) (b : WebhookBody)
    (mle : SyncOp → MLEResult) : (Nat × RespBody) × List TraceEv :=
  if eventTypeTruthy b.event_type && shouldProcessEvent (b.event_type.getD "") then
    match processAssetEvent cfg nowIso b mle with
    | (.error _, tr) => ((500, .internalError), tr)
    | (.ok r, tr) => ((200, .processed r), tr)
  else ((200, .ignored), [])

/-- The app.post("/webhook/aem-events") handler. When a webhook secret is
configured, `digest` holds the HMAC-SHA256 bytes the crypto library computes
for the raw body under that secret; an absent header is falsy (401), a
signature-verification throw reaches the catch block (500), a mismatch is 401. -/
def handleWebhook (cfg : Config) (nowIso : String) (digest : Option (List Nat))
    (headerSig : Option String) (b : WebhookBody) (mle : SyncOp → MLEResult) :
    (Nat × RespBody) × List TraceEv :=
  match digest with
  | some d =>
      match headerSig with
      | none => ((401, .invalidSignature), [])
      | some sig =>
          match verifyWebhookSignature d sig with
          | .error _ => ((500, .internalError), [])
          | .ok false => ((401, .invalidSignature), [])
          | .ok true => handleEvent cfg nowIso b mle
  | none => handleEvent cfg nowIso b mle

/-! ## Auxiliary predicates used to state claims -/

/-- A status-field value that lets the approval loop continue: absent, falsy,
or a string not case-insensitively equal to approved or published. -/
def statusFieldPasses : Option JSValue → Bool
  | none => true
  | some (.leaf (.str s)) => !(jsToLower s = "approved") && !(jsToLower s = "published")
  | some (.leaf (.num n)) => n = 0
  | some (.arr _) => false

/-- A status-field value that is truthy but not a string (a nonzero number or
any array): evaluating value.toLowerCase() on it throws. -/
def truthyNonString : Option JSValue → Bool
  | some (.leaf (.num n)) => !(n = 0)
  | some (.arr _) => true
  | _ => false

/-- The dispatch-selection rule as worded by the specification: substring
created or published selects create, else updated or modified selects update,
else deleted or removed selects remove, anything else defaults to create. -/
def specSelectOp (eventType : String) : SyncOp :=
  if jsIncludes eventType "created" || jsIncludes eventType "published" then .create
  else if jsIncludes eventType "updated" || jsIncludes eventType "modified" then .update
  else if jsIncludes eventType "deleted" || jsIncludes eventType "removed" then .remove
  else .create

/-- The retryable classification as worded by the specification: true when
there is no response at all, or when the status is at least 500 or exactly 429. -/
def specRetryableClassification : Option Nat → Bool
  | none => true
  | some status => decide (500 ≤ status) || decide (status = 429)

/-! ## Supporting lemmas -/

theorem checkApproval_of_passes {v : Option JSValue} (h : statusFieldPasses v = true) :
    checkApproval v = .ok false := by
  match v with
  | none => rfl
  | some (.leaf (.str s)) =>
      simp only [statusFieldPasses, Bool.and_eq_true, Bool.not_eq_true', decide_eq_false_iff_not] at h
      simp [checkApproval, h.1, h.2]
  | some (.leaf (.num n)) =>
      simp only [statusFieldPasses, decide_eq_true_eq] at h
      simp [checkApproval, h]
  | some (.arr _) => simp [statusFieldPasses] at h

theorem checkApproval_of_truthyNonString {v : Option JSValue} (h : truthyNonString v = true) :
    checkApproval v = .error () := by
  match v with
  | none => simp [truthyNonString] at h
  | some (.leaf (.str _)) => simp [truthyNonString] at h
  | some (.leaf (.num n)) =>
      simp only [truthyNonString, Bool.not_eq_true', decide_eq_false_iff_not] at h
      simp [checkApproval, h]
  | some (.arr _) => rfl

theorem approvedScan_ok_false {m : Metadata} {fs : List String}
    (h : ∀ f ∈ fs, statusFieldPasses (mget m f) = true) :
    approvedScan m fs = .ok false := by
  induction fs with
  | nil => rfl
  | cons f rest ih =>
      rw [approvedScan, checkApproval_of_passes (h f (by simp))]
      exact ih fun g hg => h g (by simp [hg])

theorem shouldProcessEvent_eq_false {et : String}
    (h : ∀ e ∈ processableEvents, jsIncludes et (jsSplitPop '.' e) = false) :
    shouldProcessEvent et = false := by
  unfold shouldProcessEvent
  rw [List.any_eq_false]
  intro e he
  simp [h e he]

theorem dedupAux_disjoint_seen [DecidableEq α] :
    ∀ (xs seen : List α) (y : α), y ∈ dedupAux xs seen → y ∉ seen := by
  intro xs
  induction xs with
  | nil => intro seen y hy; simp [dedupAux] at hy
  | cons x rest ih =>
      intro seen y hy
      by_cases hx : x ∈ seen
      · rw [dedupAux, if_pos hx] at hy
        exact ih seen y hy
      · rw [dedupAux, if_neg hx] at hy
        rcases List.mem_cons.mp hy with h1 | h2
        · rw [h1]; exact hx
        · intro hseen
          exact ih (x :: seen) y h2 (by simp [hseen])

theorem dedupAux_nodup [DecidableEq α] :
    ∀ (xs seen : List α), (dedupAux xs seen).Nodup := by
  intro xs
  induction xs with
  | nil => intro seen; simp [dedupAux]
  | cons x rest ih =>
      intro seen
      by_cases hx : x ∈ seen
      · rw [dedupAux, if_pos hx]; exact ih seen
      · rw [dedupAux, if_neg hx]
        refine List.nodup_cons.mpr ⟨?_, ih (x :: seen)⟩
        intro hmem
        exact dedupAux_disjoint_seen rest (x :: seen) x hmem (by simp)

theorem jsNewSet_nodup [DecidableEq α] (xs : List α) : (jsNewSet xs).Nodup :=
  dedupAux_nodup xs []

theorem hexCharVal_hexDigit : ∀ n, n < 16 → hexCharVal (hexDigit n) = some n := by decide

theorem bufferFromHex_hexEncode {bs : List Nat} (h : ∀ b ∈ bs, b < 256) :
    bufferFromHex (hexEncode bs) = bs := by
  induction bs with
  | nil => rfl
  | cons b rest ih =>
      have hb : b < 256 := h b (by simp)
      have hdiv : b / 16 < 16 := (Nat.div_lt_iff_lt_mul (by norm_num)).mpr (by omega)
      have hmod : b % 16 < 16 := Nat.mod_lt _ (by norm_num)
      show hexDecode (hexDigit (b / 16) :: hexDigit (b % 16) :: (hexEncode rest).data) = b :: rest
      rw [hexDecode, hexCharVal_hexDigit _ hdiv, hexCharVal_hexDigit _ hmod]
      have htail : hexDecode (hexEncode rest).data = rest :=
        ih fun x hx => h x (by simp [hx])
      simp [htail, Nat.div_add_mod b 16]

/-! ## Claim C1 -/

/-- Claim C1 counterexample: the event type com.adobe.aem.page.updated is NOT
ignored, because shouldProcessEvent tests substring containment of the last
segments of its listed event types and the string contains the segment
updated. The webhook processes the event (here down to the skipped status, its
metadata being unapproved) and the approval check IS performed, refuting both
parts of the claim at this input. -/
theorem c1_counterexample :
    handleWebhook { mleApiVersion := "v1", aemAuthorUrl := "a", aemPublishUrl := "p" } "now"
      none none
      { event_type := some "com.adobe.aem.page.updated",
        eventType := "com.adobe.aem.page.updated",
        assetPath := "/content/dam/p.jpg",
        metadata := [("dam:status", .leaf (.str "draft"))] }
      (fun _ => { success := true, retryable := none, hasErrorDetails := false }) =
    ((200, .processed { status := .skipped, errors := [], assetId := none }),
     [.approvalCheck]) := by decide

/-- Claim C1 as amended: for every inbound event whose event type does not
CONTAIN (as a substring) any of the last segments of the processable event
types (updated, completed, created, deleted, removed), the webhook endpoint
returns status ignored with an empty trace: no approval check, no
transformation, and no outbound call. An event type such as
com.adobe.aem.page.updated contains the segment updated and is therefore
processed, not ignored. -/
theorem c1_amended (cfg : Config) (nowIso : String) (b : WebhookBody)
    (mle : SyncOp → MLEResult)
    (h : ∀ e ∈ processableEvents, jsIncludes (b.event_type.getD "") (jsSplitPop '.' e) = false) :
    handleWebhook cfg nowIso none none b mle = ((200, .ignored), []) := by
  cases hbe : b.event_type with
  | none => simp [handleWebhook, handleEvent, eventTypeTruthy, hbe]
  | some s =>
      by_cases hs : s = ""
      · simp [handleWebhook, handleEvent, eventTypeTruthy, hbe, hs]
      · have hsp : shouldProcessEvent s = false := by
          refine shouldProcessEvent_eq_false fun e he => ?_
          have := h e he
          rwa [hbe, Option.getD_some] at this
        simp [handleWebhook, handleEvent, eventTypeTruthy, hbe, hs, hsp]

/-- Claim C1 witness: a concrete event type containing none of the processable
segments is ignored with an empty trace. -/
theorem c1_witness :
    handleWebhook { mleApiVersion := "v1", aemAuthorUrl := "a", aemPublishUrl := "p" } "now"
      none none
      { event_type := some "com.adobe.aem.page.moved",
        eventType := "com.adobe.aem.page.moved",
        assetPath := "/content/dam/p.jpg",
        metadata := [("dam:status", .leaf (.str "approved"))] }
      (fun _ => { success := true, retryable := none, hasErrorDetails := false }) =
    ((200, .ignored), []) :=
  c1_amended _ _ _ _ (by decide)

/-! ## Claim C2 -/

/-- Claim C2 counterexample: the claimed classification fails in both source
variants. The remove operation (MLEClient.deleteAsset), on a 503 response,
returns success false WITHOUT any retryable field, whereas the claim requires
retryable present and true for a status of at least 500; and the runtime
action's create operation (sendToMLE), on a 404 response, returns retryable
true - the plain re-thrown Error has no response property - whereas the claim
requires retryable false for a non-429 4xx. -/
theorem c2_counterexample :
    deleteAsset (.error { response := some 503 }) =
      { success := false, retryable := none, hasErrorDetails := true } ∧
    sendToMLE (.error (.nonOkResponse 404)) =
      { success := false, retryable := some true, hasErrorDetails := true } := by decide

/-- Claim C2 as amended: in the axios service (MLEClient), on a non-2xx
response or transport failure, create and update return success false with
error details and a retryable flag that is true exactly when there is no
response at all or the status is at least 500 or exactly 429 (false for every
other 4xx); remove (deleteAsset) also returns success false with error
details, but its result carries NO retryable flag at all. In the fetch-based
runtime action, a non-2xx response is re-thrown as a plain Error without a
response property, so its create and update classify EVERY failure - a 400 or
404 included - as retryable true, and its remove (deleteFromMLE) again carries
no retryable flag. -/
theorem c2_amended (e : AxiosError) (a : ActionError) :
    ((sendAssetMetadata (.error e)).success = false ∧
     (sendAssetMetadata (.error e)).hasErrorDetails = true ∧
     (sendAssetMetadata (.error e)).retryable = some (specRetryableClassification e.response)) ∧
    ((updateAssetMetadata (.error e)).success = false ∧
     (updateAssetMetadata (.error e)).hasErrorDetails = true ∧
     (updateAssetMetadata (.error e)).retryable = some (specRetryableClassification e.response)) ∧
    ((deleteAsset (.error e)).success = false ∧
     (deleteAsset (.error e)).hasErrorDetails = true ∧
     (deleteAsset (.error e)).retryable = none) ∧
    ((sendToMLE (.error a)).success = false ∧
     (sendToMLE (.error a)).hasErrorDetails = true ∧
     (sendToMLE (.error a)).retryable = some true) ∧
    ((updateMLE (.error a)).success = false ∧
     (updateMLE (.error a)).hasErrorDetails = true ∧
     (updateMLE (.error a)).retryable = some true) ∧
    ((deleteFromMLE (.error a)).success = false ∧
     (deleteFromMLE (.error a)).hasErrorDetails = true ∧
     (deleteFromMLE (.error a)).retryable = none) := by
  have hNone : a.responseField = none := by cases a <;> rfl
  obtain ⟨resp⟩ := e
  cases resp with
  | none =>
      simp [sendAssetMetadata, updateAssetMetadata, deleteAsset, isRetryableError,
        specRetryableClassification, sendToMLE, updateMLE, deleteFromMLE, hNone]
  | some status =>
      simp [sendAssetMetadata, updateAssetMetadata, deleteAsset, isRetryableError,
        specRetryableClassification, ge_iff_le, sendToMLE, updateMLE, deleteFromMLE, hNone]

/-! ## Claim C3 -/

/-- Claim C3 counterexample: two callers of getAccessToken with no cached
token, interleaved as check-check-write-write (the natural schedule when both
requests are in flight simultaneously), issue TWO outbound OAuth requests, not
one: the source has no in-flight-request serialization. -/
theorem c3_counterexample :
    (runSchedule
      { tm := { accessToken := none, tokenExpiry := none },
        callers :=
          [{ phase := .ready, checkTime := 0, outcome := .success "T1" 3600, respTime := 5 },
           { phase := .ready, checkTime := 1, outcome := .success "T2" 3600, respTime := 6 }],
        requests := 0 }
      [0, 1, 0, 1]).requests = 2 := by decide

/-- Claim C3 as amended: getAccessToken does not serialize concurrent
refreshes. Every caller whose cache check observes no valid token issues its
own OAuth request, so two callers interleaved check-check-write-write issue
two requests; only when one caller completes before the next one checks (so
the second check sees the freshly cached token) is a single request issued. -/
theorem c3_amended :
    (runSchedule
      { tm := { accessToken := none, tokenExpiry := none },
        callers :=
          [{ phase := .ready, checkTime := 0, outcome := .success "T1" 3600, respTime := 5 },
           { phase := .ready, checkTime := 1, outcome := .success "T2" 3600, respTime := 6 }],
        requests := 0 }
      [0, 1, 0, 1]).requests = 2 ∧
    (runSchedule
      { tm := { accessToken := none, tokenExpiry := none },
        callers :=
          [{ phase := .ready, checkTime := 0, outcome := .success "T1" 3600, respTime := 5 },
           { phase := .ready, checkTime := 1, outcome := .success "T2" 3600, respTime := 6 }],
        requests := 0 }
      [0, 0, 1, 1]).requests = 1 := by decide

/-! ## Claim C4 -/

/-- Claim C4 counterexample: on a wrong-length signature header (here the empty
string against a 32-byte digest), verifyWebhookSignature THROWS (the RangeError
of crypto.timingSafeEqual on buffers of different lengths) instead of returning
false as the claim states. -/
theorem c4_counterexample :
    verifyWebhookSignature (List.range 32) "" = .error () := by decide

/-- Claim C4 as amended: for a digest of bytes, verification returns true when
the header equals the hex-encoded digest; it returns false when the header is
valid hex decoding to a byte string of the correct length but a different
value (in particular any mutation of the body changes the digest, and any
hex-preserving mutation of the signature changes the decoded bytes); but when
the decoded header length differs from the digest length (absent pairs, wrong
length, or invalid hex, which Node truncates at the first bad pair), the
comparison THROWS rather than returning false, and the endpoint catch turns
this into a 500 rather than a 401. -/
theorem c4_amended (digest : List Nat) (h : ∀ b ∈ digest, b < 256) :
    verifyWebhookSignature digest (hexEncode digest) = .ok true ∧
    (∀ d2, (∀ b ∈ d2, b < 256) → d2.length = digest.length → d2 ≠ digest →
       verifyWebhookSignature digest (hexEncode d2) = .ok false) ∧
    (∀ sig, (bufferFromHex sig).length ≠ digest.length →
       verifyWebhookSignature digest sig = .error ()) := by
  refine ⟨?_, ?_, ?_⟩
  · unfold verifyWebhookSignature
    rw [show bufferFromHex (hexEncode digest) = digest from bufferFromHex_hexEncode h]
    simp [timingSafeEqual]
  · intro d2 h2 hlen hne
    unfold verifyWebhookSignature
    rw [show bufferFromHex (hexEncode digest) = digest from bufferFromHex_hexEncode h,
      show bufferFromHex (hexEncode d2) = d2 from bufferFromHex_hexEncode h2]
    simp only [timingSafeEqual, hlen, if_true, if_pos rfl]
    simp [hne]
  · intro sig hlen
    unfold verifyWebhookSignature
    rw [show bufferFromHex (hexEncode digest) = digest from bufferFromHex_hexEncode h]
    simp [timingSafeEqual, hlen]

/-- Claim C4 witness: with the two-byte digest 00 ff, the exact hex header
verifies, an equal-length different header returns false, and the empty header
throws. -/
theorem c4_witness :
    verifyWebhookSignature [0, 255] (hexEncode [0, 255]) = .ok true ∧
    verifyWebhookSignature [0, 255] (hexEncode [0, 254]) = .ok false ∧
    verifyWebhookSignature [0, 255] "" = .error () :=
  ⟨(c4_amended [0, 255] (by decide)).1,
   (c4_amended [0, 255] (by decide)).2.1 [0, 254] (by decide) (by decide) (by decide),
   (c4_amended [0, 255] (by decide)).2.2 "" (by decide)⟩

/-! ## Claim C5 -/

/-- Claim C5: while a cached token exists (a truthy token string and truthy
expiry, per the JavaScript guard) and the check time is strictly before the
stored expiry, getAccessToken performs no outbound request and returns the
cached token with the state unchanged; once the buffer-adjusted expiry has
passed (expiry at most now) it issues a request, and on success caches the new
token with expiry nowAfter + expiresIn * 1000 - 60000, where nowAfter is
Date.now() at the cache write. -/
theorem c5_token_lifecycle (st : TMState) (now nowAfter : Int) (out : OAuthOutcome)
    (tok : String) (e : Int) :
    (st.accessToken = some tok → tok ≠ "" → st.tokenExpiry = some e → e ≠ 0 → now < e →
       getAccessToken st now out nowAfter = (st, .ok tok, false)) ∧
    (st.tokenExpiry = some e → e ≤ now →
       (getAccessToken st now out nowAfter).2.2 = true ∧
       (∀ tok2 expiresIn, out = .success tok2 expiresIn →
          getAccessToken st now out nowAfter =
            ({ accessToken := some tok2, tokenExpiry := some (nowAfter + expiresIn * 1000 - 60000) },
             .ok tok2, true))) := by
  constructor
  · intro hTok hNe hExp hE0 hLt
    have hv : cacheValid st now = true := by
      rw [cacheValid, hTok, hExp]
      simp [hNe, hE0, hLt]
    simp [getAccessToken, hv, hTok]
  · intro hExp hLe
    have hv : cacheValid st now = false := by
      rw [cacheValid, hExp]
      cases st.accessToken with
      | none => rfl
      | some t => simp [show ¬ now < e from not_lt.mpr hLe]
    constructor
    · cases out with
      | success tok2 expiresIn => simp [getAccessToken, hv]
      | failure => simp [getAccessToken, hv]
    · intro tok2 expiresIn hOut
      rw [hOut]
      simp [getAccessToken, hv]

/-- Claim C5 witness: a valid cache at time 50 with expiry 100 is returned with
no request; at time 100 (expiry passed) a successful refresh caches the new
token with the buffer-adjusted expiry. -/
theorem c5_witness :
    getAccessToken { accessToken := some "tok", tokenExpiry := some 100 } 50 .failure 60 =
      ({ accessToken := some "tok", tokenExpiry := some 100 }, .ok "tok", false) ∧
    getAccessToken { accessToken := some "tok", tokenExpiry := some 100 } 100
        (.success "tok2" 3600) 105 =
      ({ accessToken := some "tok2", tokenExpiry := some (105 + 3600 * 1000 - 60000) },
       .ok "tok2", true) :=
  ⟨(c5_token_lifecycle { accessToken := some "tok", tokenExpiry := some 100 } 50 60 .failure
      "tok" 100).1 rfl (by decide) rfl (by decide) (by decide),
   ((c5_token_lifecycle { accessToken := some "tok", tokenExpiry := some 100 } 100 105
      (.success "tok2" 3600) "tok" 100).2 rfl (by decide)).2 "tok2" 3600 rfl⟩

/-! ## Claim C6 -/

/-- Claim C6 counterexample: a metadata map whose dam:status holds the number
42 has no status field case-insensitively equal to approved or published, yet
the processor does not return skipped: the approval check throws (42 has no
toLowerCase method) and the exception propagates out of processAssetEvent. -/
theorem c6_counterexample :
    processAssetEvent { mleApiVersion := "v1", aemAuthorUrl := "a", aemPublishUrl := "p" } "now"
      { event_type := some "com.adobe.aem.assets.updated",
        eventType := "com.adobe.aem.assets.updated",
        assetPath := "/content/dam/p.jpg",
        metadata := [("dam:status", .leaf (.num 42))] }
      (fun _ => { success := true, retryable := none, hasErrorDetails := false }) =
    (.error (), [.approvalCheck]) := by decide

/-- Claim C6 as amended: for every processable event whose metadata holds, in
each of the four status fields, a value that is absent, falsy, or a string not
case-insensitively equal to approved or published, the processor returns
status skipped and its trace records only the approval check: no
transformation and no outbound call. The restriction to string (or absent or
falsy) values is forced: a truthy non-string status field makes the approval
check throw instead of returning skipped. -/
theorem c6_amended (cfg : Config) (nowIso : String) (b : WebhookBody)
    (mle : SyncOp → MLEResult)
    (h : ∀ f ∈ approvalFields, statusFieldPasses (mget b.metadata f) = true) :
    processAssetEvent cfg nowIso b mle =
      (.ok { status := .skipped, errors := [], assetId := none }, [.approvalCheck]) ∧
    (∀ op, TraceEv.mleCall op ∉ (processAssetEvent cfg nowIso b mle).2) ∧
    TraceEv.transform ∉ (processAssetEvent cfg nowIso b mle).2 := by
  have hA : isAssetApproved b.metadata = .ok false := approvedScan_ok_false h
  have hP : processAssetEvent cfg nowIso b mle =
      (.ok { status := .skipped, errors := [], assetId := none }, [.approvalCheck]) := by
    rw [processAssetEvent, hA]
  refine ⟨hP, ?_, ?_⟩
  · intro op; rw [hP]; simp
  · rw [hP]; simp

/-- Claim C6 witness: a concrete processable event with dam:status draft is
skipped with only the approval check in its trace. -/
theorem c6_witness :
    processAssetEvent { mleApiVersion := "v1", aemAuthorUrl := "a", aemPublishUrl := "p" } "now"
      { event_type := some "com.adobe.aem.assets.updated",
        eventType := "com.adobe.aem.assets.updated",
        assetPath := "/content/dam/p.jpg",
        metadata := [("dam:status", .leaf (.str "draft"))] }
      (fun _ => { success := true, retryable := none, hasErrorDetails := false }) =
    (.ok { status := .skipped, errors := [], assetId := none }, [.approvalCheck]) :=
  (c6_amended _ _ _ _ (by decide)).1

/-! ## Claim C7 -/

/-- Claim C7: every operation actually dispatched to the MLE client by
processAssetEvent is the one selected by the event-type substring rule of the
specification: created or published selects create, otherwise updated or
modified selects update, otherwise deleted or removed selects remove, and any
other event type defaults to create. -/
theorem c7_dispatch_selection (cfg : Config) (nowIso : String) (b : WebhookBody)
    (mle : SyncOp → MLEResult) (op : SyncOp)
    (hmem : TraceEv.mleCall op ∈ (processAssetEvent cfg nowIso b mle).2) :
    op = specSelectOp b.eventType := by
  rw [processAssetEvent] at hmem
  cases hA : isAssetApproved b.metadata with
  | error e => rw [hA] at hmem; simp at hmem
  | ok approved =>
      cases approved with
      | false => rw [hA] at hmem; simp at hmem
      | true =>
          rw [hA] at hmem
          cases hT : transformForMLE cfg nowIso b.metadata b.assetPath b.eventType with
          | error e => rw [hT] at hmem; simp at hmem
          | ok nm =>
              rw [hT] at hmem
              simp only [List.mem_cons, List.not_mem_nil, or_false] at hmem
              rcases hmem with h1 | h2 | h3
              · exact absurd h1 (by simp)
              · exact absurd h2 (by simp)
              · rw [specSelectOp]
                exact TraceEv.mleCall.inj h3

/-- Claim C7 witness: an approved created event dispatches the create
operation, matching the selection rule. -/
theorem c7_witness : SyncOp.create = specSelectOp "com.adobe.aem.assets.created" :=
  c7_dispatch_selection { mleApiVersion := "v1", aemAuthorUrl := "a", aemPublishUrl := "p" } "now"
    { event_type := some "com.adobe.aem.assets.created",
      eventType := "com.adobe.aem.assets.created",
      assetPath := "/content/dam/p.jpg",
      metadata := [("dam:status", .leaf (.str "approved"))] }
    (fun _ => { success := true, retryable := none, hasErrorDetails := false })
    SyncOp.create (by decide)

/-! ## Claim C8 -/

/-- Claim C8: when the cache check fails (so a token request is attempted) and
the OAuth request fails, getAccessToken raises the authentication error and
the cached state is returned exactly as it was: no half-valid state is ever
written on the failure path. -/
theorem c8_auth_failure_state (st : TMState) (now nowAfter : Int)
    (h : cacheValid st now = false) :
    getAccessToken st now .failure nowAfter = (st, .error (), true) := by
  simp [getAccessToken, h]

/-- Claim C8 witness: with an empty cache, a failing token request leaves the
state empty and raises the error. -/
theorem c8_witness :
    getAccessToken { accessToken := none, tokenExpiry := none } 0 .failure 5 =
      ({ accessToken := none, tokenExpiry := none }, .error (), true) :=
  c8_auth_failure_state { accessToken := none, tokenExpiry := none } 0 5 (by decide)

/-! ## Claim C9 -/

/-- Claim C9: for every input metadata map, the tags, categories, and keywords
lists produced by the transformer contain no duplicate elements, whatever mix
of scalar and array values the merged source fields hold: each list is built
by spreading a JavaScript Set, which keeps first occurrences only. -/
theorem c9_dedup (m : Metadata) :
    (extractTags m).Nodup ∧ (extractCategories m).Nodup ∧ (extractKeywords m).Nodup :=
  ⟨jsNewSet_nodup _, jsNewSet_nodup _, jsNewSet_nodup _⟩

/-! ## Claim C10 -/

/-- Claim C10 counterexample: a metadata map whose dam:approvalStatus holds the
truthy number 1 but whose dam:status is the approving string approved does NOT
make the approval check throw: the loop returns its verdict at the first field
and never evaluates the non-string value, refuting the claim as universally
stated. -/
theorem c10_counterexample :
    isAssetApproved
        [("dam:status", .leaf (.str "approved")), ("dam:approvalStatus", .leaf (.num 1))] =
      .ok true ∧
    getApprovalStatus
        [("dam:status", .leaf (.str "approved")), ("dam:approvalStatus", .leaf (.num 1))] =
      .ok "approved" := by decide

/-- Claim C10 as amended: when some status field holds a truthy non-string
value and every status field scanned before it passes the gate (absent, falsy,
or a non-approving string), isAssetApproved throws instead of returning a
verdict; through a processable event this throw escapes processAssetEvent and
the webhook answers 500 rather than skipped or completed. The same holds for
getApprovalStatus over its three-field list. The claim as originally stated is
refuted only when an approving string occupies an earlier field, in which case
the loop short-circuits before reaching the non-string value. -/
theorem c10_amended (m : Metadata)
    (h :
      truthyNonString (mget m "dam:status") = true ∨
      (statusFieldPasses (mget m "dam:status") = true ∧
       truthyNonString (mget m "dam:approvalStatus") = true) ∨
      (statusFieldPasses (mget m "dam:status") = true ∧
       statusFieldPasses (mget m "dam:approvalStatus") = true ∧
       truthyNonString (mget m "cq:workflowStatus") = true) ∨
      (statusFieldPasses (mget m "dam:status") = true ∧
       statusFieldPasses (mget m "dam:approvalStatus") = true ∧
       statusFieldPasses (mget m "cq:workflowStatus") = true ∧
       truthyNonString (mget m "jcr:content/metadata/dam:status") = true)) :
    isAssetApproved m = .error () ∧
    (∀ cfg nowIso b mle, b.metadata = m →
       (processAssetEvent cfg nowIso b mle).1 = .error ()) ∧
    (∀ cfg nowIso b mle, b.metadata = m →
       b.event_type = some "com.adobe.aem.assets.updated" →
       handleWebhook cfg nowIso none none b mle = ((500, .internalError), [.approvalCheck])) ∧
    ((truthyNonString (mget m "dam:status") = true ∨
      (statusFieldPasses (mget m "dam:status") = true ∧
       truthyNonString (mget m "dam:approvalStatus") = true) ∨
      (statusFieldPasses (mget m "dam:status") = true ∧
       statusFieldPasses (mget m "dam:approvalStatus") = true ∧
       truthyNonString (mget m "cq:workflowStatus") = true)) →
      getApprovalStatus m = .error ()) := by
  have hMain : isAssetApproved m = .error () := by
    rw [isAssetApproved, approvalFields]
    rcases h with h1 | ⟨h1, h2⟩ | ⟨h1, h2, h3⟩ | ⟨h1, h2, h3, h4⟩
    · rw [approvedScan, checkApproval_of_truthyNonString h1]
    · rw [approvedScan, checkApproval_of_passes h1,
        approvedScan, checkApproval_of_truthyNonString h2]
    · rw [approvedScan, checkApproval_of_passes h1,
        approvedScan, checkApproval_of_passes h2,
        approvedScan, checkApproval_of_truthyNonString h3]
    · rw [approvedScan, checkApproval_of_passes h1,
        approvedScan, checkApproval_of_passes h2,
        approvedScan, checkApproval_of_passes h3,
        approvedScan, checkApproval_of_truthyNonString h4]
  have hProc : ∀ cfg nowIso b mle, b.metadata = m →
      processAssetEvent cfg nowIso b mle = (.error (), [.approvalCheck]) := by
    intro cfg nowIso b mle hbm
    rw [processAssetEvent, hbm, hMain]
  refine ⟨hMain, ?_, ?_, ?_⟩
  · intro cfg nowIso b mle hbm
    rw [hProc cfg nowIso b mle hbm]
  · intro cfg nowIso b mle hbm hbe
    have hcond : (eventTypeTruthy (some "com.adobe.aem.assets.updated") &&
        shouldProcessEvent ((some "com.adobe.aem.assets.updated").getD "")) = true := by decide
    rw [handleWebhook, handleEvent, hbe, hcond, if_pos rfl, hProc cfg nowIso b mle hbm]
  · intro h3
    rw [getApprovalStatus, transformerApprovalFields]
    rcases h3 with h1 | ⟨h1, h2⟩ | ⟨h1, h2, h3⟩
    · rw [approvalScanStr, checkApproval_of_truthyNonString h1]
    · rw [approvalScanStr, checkApproval_of_passes h1,
        approvalScanStr, checkApproval_of_truthyNonString h2]
    · rw [approvalScanStr, checkApproval_of_passes h1,
        approvalScanStr, checkApproval_of_passes h2,
        approvalScanStr, checkApproval_of_truthyNonString h3]

/-- Claim C10 witness: a metadata map whose dam:status holds an array value
makes both approval checks throw. -/
theorem c10_witness :
    isAssetApproved [("dam:status", JSValue.arr [])] = .error () ∧
    getApprovalStatus [("dam:status", JSValue.arr [])] = .error () :=
  ⟨(c10_amended [("dam:status", JSValue.arr [])] (Or.inl (by decide))).1,
   (c10_amended [("dam:status", JSValue.arr [])] (Or.inl (by decide))).2.2.2 (Or.inl (by decide))⟩

end AemMle
